import Mathlib

/-!
# Verification of the test-talk call-session engine

Shallow embedding of the repository's core components and proofs of the
specification claims about them:

* `PhoneValidator.sanitize` (src/unnamed/part_001),
* `RateLimiter.check` (src/unnamed/part_001),
* the TwiML generators (src/src/twiml/generator.ts),
* the call registry operations and statistics of `TestTalkService`
  (src/src/services/test-talk.service.ts).

JavaScript `Map<string, V>` objects and plain `Record<string, number>`
objects are both embedded as association lists `List (String × V)`:
`Map.get`/`obj[k]` is first-match lookup, `Map.set`/`obj[k] = v` updates the
existing binding in place (keeping its position, as JS does) or appends a new
binding, and `Map.delete` removes the binding of the key.  Registries built
by the service never hold two bindings of one key, so removing every binding
of the key coincides with removing the single one.

Timestamps (`Date.getTime()` values, milliseconds) are embedded as `Int`.
-/

/-- First-match association-list lookup: models `Map.get` / `record[key]`. -/
def alistFind? {β : Type} : List (String × β) → String → Option β
  | [], _ => none
  | p :: ps, k => if p.1 = k then some p.2 else alistFind? ps k

/-- Models `Map.set` / `record[key] = v`: replaces the binding of `k` in
place if present, otherwise appends a new binding (JS insertion order). -/
def alistSet {β : Type} : List (String × β) → String → β → List (String × β)
  | [], k, v => [(k, v)]
  | p :: ps, k, v => if p.1 = k then (k, v) :: ps else p :: alistSet ps k v

/-- Models `Map.delete key`: removes the bindings of `key`. -/
def alistErase {β : Type} : List (String × β) → String → List (String × β)
  | [], _ => []
  | p :: ps, k => if p.1 = k then alistErase ps k else p :: alistErase ps k

/-- Models JavaScript `String.prototype.startsWith`. -/
def jsStartsWith (s pre : String) : Bool :=
  pre.data.isPrefixOf s.data

/-- Character-list core of JavaScript `String.prototype.replace` with a plain
string pattern: replaces the first occurrence of `pat` (if any) by `rep`. -/
def replFirst : List Char → List Char → List Char → List Char
  | [], pat, rep => if pat.isPrefixOf ([] : List Char) then rep else []
  | c :: cs, pat, rep =>
    if pat.isPrefixOf (c :: cs) then rep ++ (c :: cs).drop pat.length
    else c :: replFirst cs pat rep

/-- Models JavaScript `s.replace(pat, rep)` for a plain string pattern
(replace the first occurrence only). -/
def jsReplaceFirst (s pat rep : String) : String :=
  String.mk (replFirst s.data pat.data rep.data)

/-! ## PhoneValidator (src/unnamed/part_001, lines 4-15) -/

/-- `phoneNumber.replace(/[^\d+]/g, '')`: keep only decimal digits and `+`. -/
def cleanPhone (phoneNumber : String) : String :=
  String.mk (phoneNumber.data.filter (fun c => c.isDigit || c == '+'))

/-- `PhoneValidator.sanitize` from src/unnamed/part_001. -/
def PhoneValidator.sanitize (phoneNumber : String) : String :=
  let cleaned := cleanPhone phoneNumber
  if jsStartsWith cleaned "+" then cleaned else "+1" ++ cleaned

/-! ## RateLimiter (src/unnamed/part_001, lines 37-88) -/

/-- One entry of the `attempts` map: `{ count: number; lastAttempt: Date }`. -/
structure RateLimitEntry where
  count : Nat
  lastAttempt : Int
  deriving Repr, DecidableEq

/-- The `RateLimiter` class state: the `attempts` map and the two
constructor parameters (defaults `maxAttempts = 5`, `windowMs = 60000`). -/
structure RateLimiter where
  attempts : List (String × RateLimitEntry)
  maxAttempts : Nat
  windowMs : Int
  deriving Repr, DecidableEq

/-- `RateLimiter.check` from src/unnamed/part_001 (lines 47-68); `now` is the
`new Date()` timestamp at the moment of the call.  Returns the boolean result
together with the state of the limiter after the call. -/
def RateLimiter.check (rl : RateLimiter) (identifier : String) (now : Int) :
    Bool × RateLimiter :=
  match alistFind? rl.attempts identifier with
  | none =>
      (true, { rl with attempts := alistSet rl.attempts identifier ⟨1, now⟩ })
  | some attempts =>
      if now - attempts.lastAttempt > rl.windowMs then
        (true, { rl with attempts := alistSet rl.attempts identifier ⟨1, now⟩ })
      else if attempts.count ≥ rl.maxAttempts then
        (false, rl)
      else
        (true,
          { rl with
            attempts :=
              alistSet rl.attempts identifier ⟨attempts.count + 1, now⟩ })

/-- The limiter state after a sequence of `check` calls, each given as
`(identifier, timestamp)`. -/
def RateLimiter.runState (rl : RateLimiter) : List (String × Int) → RateLimiter
  | [] => rl
  | (cid, t) :: rest => ((rl.check cid t).2).runState rest

/-- The timestamps of the calls for identifier `id` that `check` admitted
(returned `true` for), over a sequence of `check` calls. -/
def RateLimiter.admitted (rl : RateLimiter) (id : String) :
    List (String × Int) → List Int
  | [] => []
  | (cid, t) :: rest =>
    if cid = id ∧ (rl.check cid t).1 = true then
      t :: ((rl.check cid t).2).admitted id rest
    else ((rl.check cid t).2).admitted id rest

/-- The claim's per-identifier window state: a `count` of attempts and the
`windowStart` timestamp at which the current window began. -/
structure ClaimWindow where
  count : Nat
  windowStart : Int
  deriving Repr, DecidableEq

/-- Follows the claim's words for C1 (spec §4.1): admit and record if fewer
than `maxA` attempts were made since `windowStart`, or reset the window to 1
attempt starting now if more than `w` ms elapsed since `windowStart`;
otherwise refuse.  Recording an attempt does not move `windowStart`. -/
def claimCheck (e : Option ClaimWindow) (maxA : Nat) (w : Int) (now : Int) :
    Bool × ClaimWindow :=
  match e with
  | none => (true, ⟨1, now⟩)
  | some a =>
    if now - a.windowStart > w then (true, ⟨1, now⟩)
    else if a.count ≥ maxA then (false, a)
    else (true, ⟨a.count + 1, a.windowStart⟩)

/-- Threads `claimCheck` through a list of call timestamps for one
identifier, returning the final window state. -/
def claimCheckState (maxA : Nat) (w : Int) :
    Option ClaimWindow → List Int → Option ClaimWindow
  | e, [] => e
  | e, t :: ts => claimCheckState maxA w (some (claimCheck e maxA w t).2) ts

/-! ## TwiML generation (src/src/twiml/generator.ts)

The repository builds a `twilio.twiml.VoiceResponse` and serializes it; the
serializer belongs to the external twilio library.  The repository's own
contribution is the sequence of verbs and their attributes, so the generators
are embedded as functions producing that verb sequence. -/

/-- A noun nested under a `<Dial>` verb. -/
inductive DialNoun where
  | client (name : String)
  | number (n : String)
  deriving Repr, DecidableEq

/-- Attributes passed to `response.say(...)` (absent ones are `none`). -/
structure SayAttrs where
  voice : Option String := none
  language : Option String := none
  deriving Repr, DecidableEq

/-- Attributes passed to `response.dial(...)` (absent ones are `none`). -/
structure DialAttrs where
  callerId : Option String := none
  timeout : Option Nat := none
  answerOnBridge : Option Bool := none
  action : Option String := none
  deriving Repr, DecidableEq

/-- One verb of the generated voice-markup document. -/
inductive Verb where
  | say (attrs : SayAttrs) (text : String)
  | dial (attrs : DialAttrs) (nouns : List DialNoun)
  deriving Repr, DecidableEq

/-- Whether a verb is a dial instruction. -/
def Verb.isDial : Verb → Bool
  | .dial _ _ => true
  | .say _ _ => false

/-- `TwiMLGenerator.generateOutboundCall` (generator.ts lines 11-31). -/
def TwiMLGenerator.generateOutboundCall (to_ from_ : String) : List Verb :=
  if jsStartsWith to_ "client:" then
    [Verb.dial
      { callerId := some from_, timeout := some 30, answerOnBridge := some true }
      [DialNoun.client (jsReplaceFirst to_ "client:" "")]]
  else
    [Verb.dial
      { callerId := some from_, timeout := some 30, answerOnBridge := some true }
      [DialNoun.number to_]]

/-- Truthiness of the optional `clientIdentity` string (`undefined`/`null`
and the empty string are falsy in `if (clientIdentity)`). -/
def strTruthy : Option String → Bool
  | none => false
  | some s => !(s == "")

/-- The hold announcement of the incoming-call document. -/
def holdSay : Verb :=
  Verb.say { voice := some "alice", language := some "en-US" }
    "Please hold while we connect your call."

/-- The unavailability announcement of the incoming-call document. -/
def unavailableSay : Verb :=
  Verb.say { voice := some "alice", language := some "en-US" }
    "Sorry, no one is available to take your call right now. Please try again later."

/-- `TwiMLGenerator.generateIncomingCall` (generator.ts lines 33-63).  Note
that the source creates the `<Dial>` verb before inspecting
`clientIdentity`; when the identity is falsy the dial stays in the document
without a noun and the unavailability announcement is appended after it. -/
def TwiMLGenerator.generateIncomingCall (clientIdentity : Option String) :
    List Verb :=
  let dialAttrs : DialAttrs :=
    { timeout := some 30, action := some "/api/v1/test-talk/dial-status",
      answerOnBridge := some true }
  if strTruthy clientIdentity then
    [holdSay, Verb.dial dialAttrs [DialNoun.client (clientIdentity.getD "")]]
  else
    [holdSay, Verb.dial dialAttrs [], unavailableSay]

/-- `TwiMLGenerator.generateDialStatus` (generator.ts lines 65-82): the
`switch` with fall-through cases `no-answer`/`busy`/`failed`, the
`completed` case, and the `default` arm. -/
def TwiMLGenerator.generateDialStatus (dialStatus : String) : List Verb :=
  if dialStatus = "no-answer" ∨ dialStatus = "busy" ∨ dialStatus = "failed" then
    [Verb.say {} "The call could not be completed. Please try again later."]
  else if dialStatus = "completed" then
    [Verb.say {} "Thank you for calling. Goodbye."]
  else
    [Verb.say {} "Call ended."]

/-! ## Call registry and statistics (src/src/services/test-talk.service.ts) -/

/-- The `ActiveCall` record (src/src/types/index.ts).  `type` and `status`
are kept as strings, as in the source; `to` and `from` are Lean keywords,
so those fields are named `to_` and `from_`. -/
structure ActiveCall where
  sid : String
  to_ : String
  from_ : String
  type : String
  status : String
  createdAt : Int
  duration : Option Int := none
  lastUpdated : Option Int := none
  deriving Repr, DecidableEq

/-- The registry: the service's `activeCalls : Map<string, ActiveCall>`. -/
abbrev Registry : Type := List (String × ActiveCall)

/-- The status-update webhook payload (`CallStatus` in types/index.ts); a
missing `CallSid` is modelled by the empty string (both are falsy in
`!callStatus?.CallSid`). -/
structure CallStatusPayload where
  CallSid : String
  CallStatus : String
  Duration : Option String := none
  From : String := ""
  To : String := ""
  Direction : String := ""
  deriving Repr, DecidableEq

/-- The update object built in `handleCallStatusUpdate`:
`{ status, duration: Duration ? parseInt(Duration) : undefined, lastUpdated: new Date() }`. -/
structure CallUpdates where
  status : String
  duration : Option Int
  lastUpdated : Int
  deriving Repr, DecidableEq

/-- Models JavaScript `parseInt` on the numeric strings the carrier sends
(non-numeric input, which `parseInt` turns into `NaN`, is collapsed to
`none`). -/
def jsParseInt (s : String) : Option Int :=
  s.toInt?

/-- `trackActiveCall` (service lines 813-815): unconditional insert. -/
def trackActiveCall (reg : Registry) (callSid : String) (callData : ActiveCall) :
    Registry :=
  alistSet reg callSid callData

/-- `updateActiveCall` (service lines 817-822): merge into the existing
session if present, otherwise do nothing.  The object spread
`{ ...existingCall, ...updates }` overwrites `status`, `duration` and
`lastUpdated` because those keys are always present in the updates object
(with `duration` possibly `undefined`). -/
def updateActiveCall (reg : Registry) (callSid : String) (updates : CallUpdates) :
    Registry :=
  match alistFind? reg callSid with
  | some existingCall =>
      alistSet reg callSid
        { existingCall with
          status := updates.status
          duration := updates.duration
          lastUpdated := some updates.lastUpdated }
  | none => reg

/-- The terminal statuses cleaned up by `handleCallStatusUpdate`
(service line 217). -/
def terminalStatuses : List String :=
  ["completed", "busy", "failed", "no-answer", "canceled"]

/-- `handleCallStatusUpdate` (service lines 195-224); `now` is the
`new Date()` timestamp.  Returns the registry after the handler. -/
def handleCallStatusUpdate (reg : Registry) (callStatus : CallStatusPayload)
    (now : Int) : Registry :=
  if callStatus.CallSid = "" then reg
  else
    let reg' := updateActiveCall reg callStatus.CallSid
      { status := callStatus.CallStatus
        duration :=
          match callStatus.Duration with
          | some s => if s ≠ "" then jsParseInt s else none
          | none => none
        lastUpdated := now }
    if terminalStatuses.contains callStatus.CallStatus then
      alistErase reg' callStatus.CallSid
    else reg'

/-- Outcome of `endCall`: the returned boolean, the registry afterwards, and
the `(callSid, status)` update requests sent to the carrier client. -/
structure EndCallOutcome where
  success : Bool
  registry : Registry
  carrierUpdates : List (String × String)
  deriving DecidableEq

/-- `endCall` (service lines 229-244).  The carrier call
`twilioClient.calls(callSid).update({status:'completed'})` is external; its
outcome is the oracle `carrierOk` (`false` = the carrier threw, in which
case the `catch` arm returns `false` before the registry delete runs). -/
def endCall (reg : Registry) (callSid : String) (carrierOk : Bool) :
    EndCallOutcome :=
  if callSid = "" then ⟨false, reg, []⟩
  else if carrierOk then
    ⟨true, alistErase reg callSid, [(callSid, "completed")]⟩
  else ⟨false, reg, [(callSid, "completed")]⟩

/-- Statistics snapshot (`CallStatistics` in types/index.ts); the two
`Record<string, number>` group maps are association lists and the mean is an
exact rational. -/
structure CallStatistics where
  totalActiveCalls : Nat
  callsByStatus : List (String × Nat)
  callsByType : List (String × Nat)
  averageCallDuration : ℚ
  deriving Repr, DecidableEq

/-- `record[key] || 0` on a grouping record. -/
def recGet (r : List (String × Nat)) (k : String) : Nat :=
  (alistFind? r k).getD 0

/-- `callsByStatus[call.status] = (callsByStatus[call.status] || 0) + 1`. -/
def statusAcc (bs : List (String × Nat)) (call : ActiveCall) :
    List (String × Nat) :=
  alistSet bs call.status (recGet bs call.status + 1)

/-- `callsByType[call.type] = (callsByType[call.type] || 0) + 1`. -/
def typeAcc (bt : List (String × Nat)) (call : ActiveCall) :
    List (String × Nat) :=
  alistSet bt call.type (recGet bt call.type + 1)

/-- Truthiness of `call.duration` (absent and `0` are falsy). -/
def durTruthy : Option Int → Bool
  | none => false
  | some d => !(d == 0)

/-- `if (call.status === 'completed' && call.duration) { totalDuration += call.duration; completedCalls++; }` -/
def durationAcc (p : Int × Nat) (call : ActiveCall) : Int × Nat :=
  if call.status = "completed" ∧ durTruthy call.duration = true then
    (p.1 + call.duration.getD 0, p.2 + 1)
  else p

/-- `getCallStatistics` (service lines 276-300), as a function of the
currently tracked sessions. -/
def getCallStatistics (activeCalls : List ActiveCall) : CallStatistics :=
  let acc := activeCalls.foldl
    (fun acc call =>
      (statusAcc acc.1 call, typeAcc acc.2.1 call, durationAcc acc.2.2 call))
    ([], [], (0, 0))
  { totalActiveCalls := activeCalls.length
    callsByStatus := acc.1
    callsByType := acc.2.1
    averageCallDuration :=
      if acc.2.2.2 > 0 then (acc.2.2.1 : ℚ) / (acc.2.2.2 : ℚ) else 0 }

/-- The sessions the code's mean actually averages over: status
`completed` and a truthy (present, nonzero) `duration`. -/
def qualifies (c : ActiveCall) : Bool :=
  (c.status == "completed") && durTruthy c.duration

/-- The durations the code's mean averages. -/
def qualifyingDurations (calls : List ActiveCall) : List Int :=
  (calls.filter qualifies).map (fun c => c.duration.getD 0)

/-- The amended mean of C3: mean `duration` over sessions whose status is
`completed` and whose `duration` is present and nonzero, `0` if none
qualify. -/
def amendedAverageCallDuration (calls : List ActiveCall) : ℚ :=
  if (qualifyingDurations calls).length > 0 then
    ((qualifyingDurations calls).sum : ℚ) / ((qualifyingDurations calls).length : ℚ)
  else 0

/-- The durations the claim's words select for C3: sessions whose status is
`completed` and whose `duration` field is present. -/
def claimQualifyingDurations (calls : List ActiveCall) : List Int :=
  (calls.filter
      (fun c => (c.status == "completed") && c.duration.isSome)).map
    (fun c => c.duration.getD 0)

/-- Follows the claim's words for C3: mean `duration` over sessions whose
status is `completed` and whose `duration` field is present, `0` if none
qualify. -/
def claimAverageCallDuration (calls : List ActiveCall) : ℚ :=
  if (claimQualifyingDurations calls).length > 0 then
    ((claimQualifyingDurations calls).sum : ℚ) /
      ((claimQualifyingDurations calls).length : ℚ)
  else 0

/-- Registry states reachable through the service's mutations: the empty
initial map, `trackActiveCall` as invoked by `makeBrowserToPhoneCall`
(always with status `initiated` and no duration), webhook handling by
`handleCallStatusUpdate`, and the registry delete of a successful
`endCall`. -/
inductive ReachableRegistry : Registry → Prop where
  | empty : ReachableRegistry []
  | track {reg : Registry} (sid to_ from_ : String) (now : Int) :
      ReachableRegistry reg →
      ReachableRegistry
        (trackActiveCall reg sid
          { sid := sid, to_ := to_, from_ := from_, type := "browser-to-phone",
            status := "initiated", createdAt := now })
  | statusUpdate {reg : Registry} (cs : CallStatusPayload) (now : Int) :
      ReachableRegistry reg →
      ReachableRegistry (handleCallStatusUpdate reg cs now)
  | endOk {reg : Registry} (sid : String) :
      ReachableRegistry reg →
      ReachableRegistry (alistErase reg sid)


/-- Example sessions used by concrete witnesses and counterexamples. -/
def exCall (sid status : String) (dur : Option Int) : ActiveCall :=
  { sid := sid, to_ := "+15550001111", from_ := "+15552223333",
    type := "browser-to-phone", status := status, createdAt := 0,
    duration := dur }

/-- The closed interval of length `w` starting at `T` (as a Boolean test), the
rolling window of claim C4. -/
def inWindow (w T t : Int) : Bool :=
  decide (T ≤ t ∧ t ≤ T + w)

/-- Any `k+1` entries of `A` that are at least `k` index positions apart
differ by more than `w`: the key separation property of the list of admitted
timestamps of one identifier. -/
def GoodList (k : Nat) (w : Int) (A : List Int) : Prop :=
  ∀ (i j : Nat) (hi : i < A.length) (hj : j < A.length), i + k ≤ j →
    A.get ⟨j, hj⟩ - A.get ⟨i, hi⟩ > w

/-- The last `c` entries of `A` (the admissions of the current window) are
more than `w` above every earlier entry. -/
def RunOk (c : Nat) (w : Int) (A : List Int) : Prop :=
  ∀ (i j : Nat) (hi : i < A.length) (hj : j < A.length),
    i + c < A.length → A.length - c ≤ j →
    A.get ⟨j, hj⟩ - A.get ⟨i, hi⟩ > w

/-- Invariant tying one identifier's limiter entry to the list `A` of its
admitted timestamps so far. -/
def EntryInv (k : Nat) (w : Int) (e : Option RateLimitEntry) (A : List Int) :
    Prop :=
  match e with
  | none => A = []
  | some a =>
      1 ≤ a.count ∧ a.count ≤ k ∧ a.count ≤ A.length ∧
      (∃ B, A = B ++ [a.lastAttempt]) ∧ RunOk a.count w A

/-! ## Basic lemmas about the association-list embedding of maps -/

theorem alistFind?_set_self {β : Type} (m : List (String × β)) (k : String) (v : β) :
    alistFind? (alistSet m k v) k = some v := by
  induction m with
  | nil => simp [alistSet, alistFind?]
  | cons p ps ih =>
    by_cases h : p.1 = k
    · simp [alistSet, h, alistFind?]
    · simp [alistSet, h, alistFind?, ih]

theorem alistFind?_set_ne {β : Type} (m : List (String × β)) (k k' : String) (v : β)
    (h : k' ≠ k) : alistFind? (alistSet m k v) k' = alistFind? m k' := by
  have hkk' : ¬ (k = k') := fun hk => h hk.symm
  induction m with
  | nil => simp [alistSet, alistFind?, hkk']
  | cons p ps ih =>
    by_cases hp : p.1 = k
    · have hp' : ¬ p.1 = k' := by rw [hp]; exact hkk'
      simp [alistSet, hp, alistFind?, hkk', hp']
    · simp only [alistSet, hp, if_false, alistFind?]
      by_cases hp' : p.1 = k'
      · simp [hp']
      · simp [hp', ih]

theorem alistFind?_erase_self {β : Type} (m : List (String × β)) (k : String) :
    alistFind? (alistErase m k) k = none := by
  induction m with
  | nil => simp [alistErase, alistFind?]
  | cons p ps ih =>
    by_cases h : p.1 = k
    · simp [alistErase, h, ih]
    · simp [alistErase, h, alistFind?, ih]

theorem alistFind?_erase_ne {β : Type} (m : List (String × β)) (k k' : String)
    (h : k' ≠ k) : alistFind? (alistErase m k) k' = alistFind? m k' := by
  have hkk' : ¬ (k = k') := fun hk => h hk.symm
  induction m with
  | nil => simp [alistErase]
  | cons p ps ih =>
    by_cases hp : p.1 = k
    · have hp' : ¬ p.1 = k' := by rw [hp]; exact hkk'
      simp [alistErase, hp, alistFind?, hp', ih, hkk']
    · by_cases hp' : p.1 = k'
      · simp [alistErase, hp, alistFind?, hp', h, hkk']
      · simp [alistErase, hp, alistFind?, hp', ih]

theorem alistErase_of_find?_none {β : Type} (m : List (String × β)) (k : String)
    (h : alistFind? m k = none) : alistErase m k = m := by
  induction m with
  | nil => simp [alistErase]
  | cons p ps ih =>
    by_cases hp : p.1 = k
    · simp [alistFind?, hp] at h
    · simp only [alistFind?, hp, if_false] at h
      simp [alistErase, hp, ih h]

/-! ## String helpers -/

theorem stringMk_data (s : String) : String.mk s.data = s := rfl

theorem stringData_append (a b : String) : (a ++ b).data = a.data ++ b.data := rfl

theorem isPrefixOf_append_self (l r : List Char) : l.isPrefixOf (l ++ r) = true := by
  rw [ List.isPrefixOf_iff_prefix]
  exact ⟨r, rfl⟩

theorem replFirst_append_pat (pre rest rep : List Char) :
    replFirst (pre ++ rest) pre rep = rep ++ rest := by
  cases pre with
  | nil =>
    cases rest with
    | nil => simp [replFirst]
    | cons c cs => simp [replFirst]
  | cons p ps =>
    have h2 : (p :: ps).isPrefixOf (p :: (ps ++ rest)) = true := by
      rw [← List.cons_append]
      exact isPrefixOf_append_self _ _
    show replFirst (p :: (ps ++ rest)) (p :: ps) rep = rep ++ rest
    simp only [replFirst, h2, if_true]
    congr 1
    rw [← List.cons_append, List.drop_left]

theorem cleanPhone_chars (s : String) :
    ∀ c ∈ (cleanPhone s).data, (c.isDigit || c == '+') = true := by
  intro c hc
  simp only [cleanPhone] at hc
  exact (List.mem_filter.mp hc).2

/-- Unfolding equation for `PhoneValidator.sanitize`. -/
theorem sanitize_eq (x : String) :
    PhoneValidator.sanitize x =
      if jsStartsWith (cleanPhone x) "+" then cleanPhone x
      else "+1" ++ cleanPhone x := rfl

/-- C10: for every input string, `PhoneValidator.sanitize` returns a string
of digits and `+` only that begins with `+`; when the cleaned input does not
begin with `+` the prefix `+1` is prepended; and `sanitize` is idempotent. -/
theorem phoneValidator_sanitize_spec (s : String) :
    (∀ c ∈ (PhoneValidator.sanitize s).data, c.isDigit = true ∨ c = '+')
    ∧ (PhoneValidator.sanitize s).data.head? = some '+'
    ∧ (jsStartsWith (cleanPhone s) "+" = false →
        PhoneValidator.sanitize s = "+1" ++ cleanPhone s)
    ∧ PhoneValidator.sanitize (PhoneValidator.sanitize s) =
        PhoneValidator.sanitize s := by
  have hplus : ("+" : String).data = ['+'] := rfl
  have hchars : ∀ c ∈ (PhoneValidator.sanitize s).data,
      (c.isDigit || c == '+') = true := by
    rw [sanitize_eq]
    by_cases h : jsStartsWith (cleanPhone s) "+" = true
    · simp only [h, if_true]
      exact cleanPhone_chars s
    · rw [if_neg (by simp [h])]
      intro c hc
      rw [stringData_append] at hc
      rcases List.mem_append.mp hc with h1 | h2
      · have h12 : ("+1" : String).data = ['+', '1'] := rfl
        rw [h12] at h1
        fin_cases h1 <;> rfl
      · exact cleanPhone_chars s c h2
  have hhead : (PhoneValidator.sanitize s).data.head? = some '+' := by
    rw [sanitize_eq]
    by_cases h : jsStartsWith (cleanPhone s) "+" = true
    · simp only [h, if_true]
      unfold jsStartsWith at h
      rw [ List.isPrefixOf_iff_prefix, hplus] at h
      obtain ⟨t, ht⟩ := h
      rw [← ht]
      rfl
    · rw [if_neg (by simp [h])]
      rw [stringData_append]
      rfl
  have hidem : PhoneValidator.sanitize (PhoneValidator.sanitize s) =
      PhoneValidator.sanitize s := by
    have hclean : cleanPhone (PhoneValidator.sanitize s) =
        PhoneValidator.sanitize s := by
      unfold cleanPhone
      rw [List.filter_eq_self.mpr hchars]
    have hsw : jsStartsWith (cleanPhone (PhoneValidator.sanitize s)) "+" = true := by
      rw [hclean]
      unfold jsStartsWith
      rw [ List.isPrefixOf_iff_prefix, hplus]
      obtain ⟨rest, hrest⟩ : ∃ rest,
          (PhoneValidator.sanitize s).data = '+' :: rest := by
        cases hd : (PhoneValidator.sanitize s).data with
        | nil => rw [hd] at hhead; simp at hhead
        | cons a l =>
          rw [hd] at hhead
          simp only [List.head?_cons, Option.some_inj] at hhead
          exact ⟨l, by rw [hhead]⟩
      rw [hrest]
      exact ⟨rest, rfl⟩
    rw [sanitize_eq (PhoneValidator.sanitize s), if_pos hsw, hclean]
  refine ⟨?_, hhead, ?_, hidem⟩
  · intro c hc
    have := hchars c hc
    simpa using this
  · intro h
    rw [sanitize_eq, if_neg]
    simp [h]

/-- Witness for C10 at a concrete bare national number. -/
theorem phoneValidator_sanitize_witness :
    PhoneValidator.sanitize "555-123 4567" = "+1" ++ cleanPhone "555-123 4567"
    ∧ PhoneValidator.sanitize (PhoneValidator.sanitize "555-123 4567") =
        PhoneValidator.sanitize "555-123 4567" :=
  ⟨(phoneValidator_sanitize_spec "555-123 4567").2.2.1 (by decide),
   (phoneValidator_sanitize_spec "555-123 4567").2.2.2⟩

/-- C7: `generateOutboundCall` emits one `Dial` with caller ID `from`, a
30-second timeout and answer-on-bridge; the dial targets the client name
with the `client:` prefix removed when `to` carries that prefix, and the
PSTN number `to` otherwise. -/
theorem generateOutboundCall_spec (to_ from_ : String) :
    (∀ s, to_ = "client:" ++ s →
      TwiMLGenerator.generateOutboundCall to_ from_ =
        [Verb.dial
          { callerId := some from_, timeout := some 30,
            answerOnBridge := some true }
          [DialNoun.client s]])
    ∧ (jsStartsWith to_ "client:" = false →
      TwiMLGenerator.generateOutboundCall to_ from_ =
        [Verb.dial
          { callerId := some from_, timeout := some 30,
            answerOnBridge := some true }
          [DialNoun.number to_]]) := by
  constructor
  · intro s hs
    subst hs
    have hsw : jsStartsWith ("client:" ++ s) "client:" = true := by
      unfold jsStartsWith
      rw [stringData_append]
      exact isPrefixOf_append_self _ _
    have hrep : jsReplaceFirst ("client:" ++ s) "client:" "" = s := by
      unfold jsReplaceFirst
      rw [stringData_append]
      have hemp : ("" : String).data = [] := rfl
      rw [hemp, replFirst_append_pat]
      simp [stringMk_data]
    unfold TwiMLGenerator.generateOutboundCall
    rw [if_pos hsw, hrep]
  · intro h
    unfold TwiMLGenerator.generateOutboundCall
    rw [if_neg (by simp [h])]

/-- Witness for C7 at the spec's two concrete destinations. -/
theorem generateOutboundCall_witness :
    TwiMLGenerator.generateOutboundCall "client:alice" "+15551234567" =
      [Verb.dial
        { callerId := some "+15551234567", timeout := some 30,
          answerOnBridge := some true }
        [DialNoun.client "alice"]]
    ∧ TwiMLGenerator.generateOutboundCall "+15559876543" "+15551234567" =
      [Verb.dial
        { callerId := some "+15551234567", timeout := some 30,
          answerOnBridge := some true }
        [DialNoun.number "+15559876543"]] :=
  ⟨(generateOutboundCall_spec "client:alice" "+15551234567").1 "alice" (by decide),
   (generateOutboundCall_spec "+15559876543" "+15551234567").2 (by decide)⟩

/-- C8: `generateDialStatus` is total; `no-answer`/`busy`/`failed` produce
the apology announcement, `completed` the thank-you announcement, and every
other status the generic call-ended announcement. -/
theorem generateDialStatus_spec (s : String) :
    (s = "no-answer" ∨ s = "busy" ∨ s = "failed" →
      TwiMLGenerator.generateDialStatus s =
        [Verb.say {} "The call could not be completed. Please try again later."])
    ∧ (s = "completed" →
      TwiMLGenerator.generateDialStatus s =
        [Verb.say {} "Thank you for calling. Goodbye."])
    ∧ (¬ (s = "no-answer" ∨ s = "busy" ∨ s = "failed") → s ≠ "completed" →
      TwiMLGenerator.generateDialStatus s = [Verb.say {} "Call ended."]) := by
  refine ⟨?_, ?_, ?_⟩
  · intro h
    unfold TwiMLGenerator.generateDialStatus
    rw [if_pos h]
  · intro h
    subst h
    rfl
  · intro h1 h2
    unfold TwiMLGenerator.generateDialStatus
    rw [if_neg h1, if_neg h2]

/-- Witness for C8 at one status of each kind, including an unknown one. -/
theorem generateDialStatus_witness :
    TwiMLGenerator.generateDialStatus "busy" =
      [Verb.say {} "The call could not be completed. Please try again later."]
    ∧ TwiMLGenerator.generateDialStatus "completed" =
      [Verb.say {} "Thank you for calling. Goodbye."]
    ∧ TwiMLGenerator.generateDialStatus "some-future-status" =
      [Verb.say {} "Call ended."] :=
  ⟨(generateDialStatus_spec "busy").1 (Or.inr (Or.inl rfl)),
   (generateDialStatus_spec "completed").2.1 rfl,
   (generateDialStatus_spec "some-future-status").2.2 (by decide) (by decide)⟩

/-- Counterexample for C2: with no resolvable client identity the generated
incoming-call document still contains a dial instruction (created before the
identity check, left without a target) and the hold announcement, so it does
not consist of the unavailability announcement alone. -/
theorem generateIncomingCall_counterexample :
    (TwiMLGenerator.generateIncomingCall none).any Verb.isDial = true
    ∧ holdSay ∈ TwiMLGenerator.generateIncomingCall none
    ∧ TwiMLGenerator.generateIncomingCall none ≠ [unavailableSay] := by
  refine ⟨rfl, ?_, by decide⟩
  show holdSay ∈ [holdSay,
    Verb.dial
      { timeout := some 30, action := some "/api/v1/test-talk/dial-status",
        answerOnBridge := some true } [],
    unavailableSay]
  exact List.Mem.head _

/-- C2 amended: when no client identity is resolved (identity absent or
empty), the document contains the unavailability announcement, and its dial
instruction carries no target noun — no client or number is dialed; the hold
announcement and the target-less dial element still precede the
unavailability announcement. -/
theorem generateIncomingCall_falsy_spec (c : Option String)
    (h : strTruthy c = false) :
    TwiMLGenerator.generateIncomingCall c =
      [holdSay,
       Verb.dial
         { timeout := some 30, action := some "/api/v1/test-talk/dial-status",
           answerOnBridge := some true } [],
       unavailableSay]
    ∧ unavailableSay ∈ TwiMLGenerator.generateIncomingCall c
    ∧ ∀ attrs nouns,
        Verb.dial attrs nouns ∈ TwiMLGenerator.generateIncomingCall c →
        nouns = [] := by
  have heq : TwiMLGenerator.generateIncomingCall c =
      [holdSay,
       Verb.dial
         { timeout := some 30, action := some "/api/v1/test-talk/dial-status",
           answerOnBridge := some true } [],
       unavailableSay] := by
    unfold TwiMLGenerator.generateIncomingCall
    rw [if_neg (by simp [h])]
  refine ⟨heq, ?_, ?_⟩
  · rw [heq]
    exact List.Mem.tail _ (List.Mem.tail _ (List.Mem.head _))
  · intro attrs nouns hm
    rw [heq] at hm
    rcases hm with _ | ⟨_, hm⟩
    · rcases hm with _ | ⟨_, hm⟩
      · rfl
      · rcases hm with _ | ⟨_, hm⟩
        · cases hm

/-- Witness for the amended C2 at the unresolved identity `none`. -/
theorem generateIncomingCall_falsy_witness :
    TwiMLGenerator.generateIncomingCall none =
      [holdSay,
       Verb.dial
         { timeout := some 30, action := some "/api/v1/test-talk/dial-status",
           answerOnBridge := some true } [],
       unavailableSay]
    ∧ unavailableSay ∈ TwiMLGenerator.generateIncomingCall none :=
  ⟨(generateIncomingCall_falsy_spec none rfl).1,
   (generateIncomingCall_falsy_spec none rfl).2.1⟩

/-- C6: a status update for a call id that is not in the registry leaves the
registry unchanged (`handleCallStatusUpdate` is a no-op there, including a
terminal-status webhook for an already-removed id), and `updateActiveCall`
itself is a no-op on an unknown id. -/
theorem handleCallStatusUpdate_unknown_id (reg : Registry)
    (cs : CallStatusPayload) (now : Int)
    (h : alistFind? reg cs.CallSid = none) :
    handleCallStatusUpdate reg cs now = reg
    ∧ ∀ u : CallUpdates, updateActiveCall reg cs.CallSid u = reg := by
  have hupd : ∀ u : CallUpdates, updateActiveCall reg cs.CallSid u = reg := by
    intro u
    unfold updateActiveCall
    rw [h]
  refine ⟨?_, hupd⟩
  unfold handleCallStatusUpdate
  by_cases hsid : cs.CallSid = ""
  · rw [if_pos hsid]
  · rw [if_neg hsid]
    simp only [hupd]
    by_cases ht : terminalStatuses.contains cs.CallStatus = true
    · rw [if_pos ht]
      exact alistErase_of_find?_none reg cs.CallSid h
    · rw [if_neg ht]

/-- Witness for C6: a terminal-status webhook for an id absent from a
nonempty registry changes nothing. -/
theorem handleCallStatusUpdate_unknown_id_witness :
    handleCallStatusUpdate
        [("CA111",
          { sid := "CA111", to_ := "+15550001111", from_ := "+15552223333",
            type := "browser-to-phone", status := "ringing", createdAt := 0 })]
        { CallSid := "CA999", CallStatus := "completed",
          Duration := some "17" } 42
      = [("CA111",
          { sid := "CA111", to_ := "+15550001111", from_ := "+15552223333",
            type := "browser-to-phone", status := "ringing", createdAt := 0 })] :=
  (handleCallStatusUpdate_unknown_id
    [("CA111",
      { sid := "CA111", to_ := "+15550001111", from_ := "+15552223333",
        type := "browser-to-phone", status := "ringing", createdAt := 0 })]
    { CallSid := "CA999", CallStatus := "completed", Duration := some "17" }
    42 (by decide)).1

/-- C9: `endCall` returns `false` without contacting the carrier on an empty
id; otherwise it sends the carrier a completed-status update for the call
and, on success, removes the id from the registry and returns `true`, while
a carrier-side error yields `false` (no exception, registry untouched). -/
theorem endCall_spec (reg : Registry) (callSid : String) (carrierOk : Bool) :
    (callSid = "" → endCall reg callSid carrierOk = ⟨false, reg, []⟩)
    ∧ (callSid ≠ "" → carrierOk = true →
        endCall reg callSid carrierOk =
          ⟨true, alistErase reg callSid, [(callSid, "completed")]⟩
        ∧ alistFind? (endCall reg callSid carrierOk).registry callSid = none)
    ∧ (callSid ≠ "" → carrierOk = false →
        endCall reg callSid carrierOk = ⟨false, reg, [(callSid, "completed")]⟩) := by
  refine ⟨?_, ?_, ?_⟩
  · intro h
    unfold endCall
    rw [if_pos h]
  · intro h hok
    have heq : endCall reg callSid carrierOk =
        ⟨true, alistErase reg callSid, [(callSid, "completed")]⟩ := by
      unfold endCall
      rw [if_neg h, if_pos hok]
    refine ⟨heq, ?_⟩
    rw [heq]
    exact alistFind?_erase_self reg callSid
  · intro h hok
    unfold endCall
    rw [if_neg h, if_neg (by simp [hok])]

/-- Witness for C9: the three branches at a concrete registry. -/
theorem endCall_witness :
    endCall
        [("CA1",
          { sid := "CA1", to_ := "+15550001111", from_ := "+15552223333",
            type := "browser-to-phone", status := "in-progress", createdAt := 0 })]
        "" true
      = ⟨false,
         [("CA1",
           { sid := "CA1", to_ := "+15550001111", from_ := "+15552223333",
             type := "browser-to-phone", status := "in-progress", createdAt := 0 })],
         []⟩
    ∧ endCall
        [("CA1",
          { sid := "CA1", to_ := "+15550001111", from_ := "+15552223333",
            type := "browser-to-phone", status := "in-progress", createdAt := 0 })]
        "CA1" true
      = ⟨true, [], [("CA1", "completed")]⟩
    ∧ endCall
        [("CA1",
          { sid := "CA1", to_ := "+15550001111", from_ := "+15552223333",
            type := "browser-to-phone", status := "in-progress", createdAt := 0 })]
        "CA1" false
      = ⟨false,
         [("CA1",
           { sid := "CA1", to_ := "+15550001111", from_ := "+15552223333",
             type := "browser-to-phone", status := "in-progress", createdAt := 0 })],
         [("CA1", "completed")]⟩ := by
  refine ⟨(endCall_spec _ "" true).1 rfl, ?_, (endCall_spec _ "CA1" false).2.2 (by decide) rfl⟩
  have h := ((endCall_spec
    [("CA1",
      { sid := "CA1", to_ := "+15550001111", from_ := "+15552223333",
        type := "browser-to-phone", status := "in-progress", createdAt := 0 })]
    "CA1" true).2.1 (by decide) rfl).1
  rw [h]
  rfl

theorem updateActiveCall_find?_ne (reg : Registry) (k : String) (u : CallUpdates)
    (k' : String) (h : k' ≠ k) :
    alistFind? (updateActiveCall reg k u) k' = alistFind? reg k' := by
  unfold updateActiveCall
  cases hf : alistFind? reg k with
  | none => rfl
  | some e => exact alistFind?_set_ne reg k k' _ h

/-- C5: after `handleCallStatusUpdate` processes an event carrying a call id
and a terminal status, that call id is absent from the registry; moreover,
in every reachable registry state no tracked session carries a terminal
status once the mutating operations return. -/
theorem terminal_cleanup_spec :
    (∀ (reg : Registry) (cs : CallStatusPayload) (now : Int),
        terminalStatuses.contains cs.CallStatus = true → cs.CallSid ≠ "" →
        alistFind? (handleCallStatusUpdate reg cs now) cs.CallSid = none)
    ∧ ∀ (reg : Registry), ReachableRegistry reg →
        ∀ sid c, alistFind? reg sid = some c →
          terminalStatuses.contains c.status = false := by
  have hterm : ∀ (reg : Registry) (cs : CallStatusPayload) (now : Int),
      terminalStatuses.contains cs.CallStatus = true → cs.CallSid ≠ "" →
      alistFind? (handleCallStatusUpdate reg cs now) cs.CallSid = none := by
    intro reg cs now ht hsid
    unfold handleCallStatusUpdate
    rw [if_neg hsid, if_pos ht]
    exact alistFind?_erase_self _ _
  refine ⟨hterm, ?_⟩
  intro reg hreach
  induction hreach with
  | empty => intro sid c h; cases h
  | @track reg0 sid0 to0 from0 now0 _ ih =>
    intro sid c h
    by_cases hs : sid = sid0
    · subst hs
      rw [trackActiveCall, alistFind?_set_self] at h
      cases h
      show terminalStatuses.contains "initiated" = false
      decide
    · rw [trackActiveCall, alistFind?_set_ne _ _ _ _ hs] at h
      exact ih sid c h
  | @statusUpdate reg0 cs now0 _ ih =>
    intro sid c h
    unfold handleCallStatusUpdate at h
    by_cases hsid : cs.CallSid = ""
    · rw [if_pos hsid] at h
      exact ih sid c h
    · rw [if_neg hsid] at h
      by_cases ht : terminalStatuses.contains cs.CallStatus = true
      · rw [if_pos ht] at h
        by_cases hs : sid = cs.CallSid
        · subst hs
          rw [alistFind?_erase_self] at h
          cases h
        · rw [alistFind?_erase_ne _ _ _ hs,
            updateActiveCall_find?_ne _ _ _ _ hs] at h
          exact ih sid c h
      · rw [if_neg ht] at h
        by_cases hs : sid = cs.CallSid
        · subst hs
          unfold updateActiveCall at h
          cases hf : alistFind? reg0 cs.CallSid with
          | none =>
            rw [hf] at h
            exact ih _ c h
          | some e =>
            rw [hf, alistFind?_set_self] at h
            cases h
            simpa using ht
        · rw [updateActiveCall_find?_ne _ _ _ _ hs] at h
          exact ih sid c h
  | @endOk reg0 sid0 _ ih =>
    intro sid c h
    by_cases hs : sid = sid0
    · subst hs
      rw [alistFind?_erase_self] at h
      cases h
    · rw [alistFind?_erase_ne _ _ _ hs] at h
      exact ih sid c h

/-- Witness for C5: a terminal update removes the concrete session, and a
concrete reachable registry carries no terminal session. -/
theorem terminal_cleanup_witness :
    alistFind?
        (handleCallStatusUpdate
          [("CA1",
            { sid := "CA1", to_ := "+15550001111", from_ := "+15552223333",
              type := "browser-to-phone", status := "in-progress", createdAt := 0 })]
          { CallSid := "CA1", CallStatus := "completed", Duration := some "42" }
          99)
        "CA1" = none
    ∧ ∀ sid c,
        alistFind?
            (trackActiveCall [] "CA1"
              { sid := "CA1", to_ := "+15550001111", from_ := "+15552223333",
                type := "browser-to-phone", status := "initiated",
                createdAt := 0 })
            sid = some c →
        terminalStatuses.contains c.status = false :=
  ⟨terminal_cleanup_spec.1
      [("CA1",
        { sid := "CA1", to_ := "+15550001111", from_ := "+15552223333",
          type := "browser-to-phone", status := "in-progress", createdAt := 0 })]
      { CallSid := "CA1", CallStatus := "completed", Duration := some "42" }
      99 (by decide) (by decide),
   terminal_cleanup_spec.2 _
      (ReachableRegistry.track "CA1" "+15550001111" "+15552223333" 0
        ReachableRegistry.empty)⟩

theorem check_eq_none (rl : RateLimiter) (id : String) (now : Int)
    (ha : alistFind? rl.attempts id = none) :
    rl.check id now =
      (true, { rl with attempts := alistSet rl.attempts id ⟨1, now⟩ }) := by
  unfold RateLimiter.check
  rw [ha]

theorem check_eq_some (rl : RateLimiter) (id : String) (now : Int)
    (a : RateLimitEntry) (ha : alistFind? rl.attempts id = some a) :
    rl.check id now =
      if now - a.lastAttempt > rl.windowMs then
        (true, { rl with attempts := alistSet rl.attempts id ⟨1, now⟩ })
      else if a.count ≥ rl.maxAttempts then (false, rl)
      else
        (true,
          { rl with attempts := alistSet rl.attempts id ⟨a.count + 1, now⟩ }) := by
  unfold RateLimiter.check
  rw [ha]

/-- C1 amended: `RateLimiter.check` with the window anchored at the
identifier's last recorded attempt (`lastAttempt`): it admits and records
when the identifier is unknown, when more than `windowMs` has elapsed since
the last recorded attempt (reset to 1 attempt starting now), or when within
`windowMs` of the last recorded attempt with fewer than `maxAttempts`
attempts recorded; it returns `false` without mutating any limiter state
exactly when within `windowMs` of the last recorded attempt and already at
the limit. -/
theorem rateLimiter_check_spec (rl : RateLimiter) (id : String) (now : Int) :
    (alistFind? rl.attempts id = none →
      rl.check id now =
        (true, { rl with attempts := alistSet rl.attempts id ⟨1, now⟩ }))
    ∧ (∀ a, alistFind? rl.attempts id = some a →
        now - a.lastAttempt > rl.windowMs →
        rl.check id now =
          (true, { rl with attempts := alistSet rl.attempts id ⟨1, now⟩ }))
    ∧ (∀ a, alistFind? rl.attempts id = some a →
        now - a.lastAttempt ≤ rl.windowMs → a.count < rl.maxAttempts →
        rl.check id now =
          (true,
            { rl with attempts := alistSet rl.attempts id ⟨a.count + 1, now⟩ }))
    ∧ (∀ a, alistFind? rl.attempts id = some a →
        now - a.lastAttempt ≤ rl.windowMs → rl.maxAttempts ≤ a.count →
        rl.check id now = (false, rl))
    ∧ ((rl.check id now).1 = false ↔
        ∃ a, alistFind? rl.attempts id = some a ∧
          now - a.lastAttempt ≤ rl.windowMs ∧ rl.maxAttempts ≤ a.count) := by
  refine ⟨check_eq_none rl id now, ?_, ?_, ?_, ?_⟩
  · intro a ha hw
    rw [check_eq_some rl id now a ha, if_pos hw]
  · intro a ha hw hc
    rw [check_eq_some rl id now a ha, if_neg (by omega), if_neg (by omega)]
  · intro a ha hw hc
    rw [check_eq_some rl id now a ha, if_neg (by omega), if_pos (by omega)]
  · constructor
    · intro hfalse
      cases ha : alistFind? rl.attempts id with
      | none => rw [check_eq_none rl id now ha] at hfalse; cases hfalse
      | some a =>
        rw [check_eq_some rl id now a ha] at hfalse
        by_cases hw : now - a.lastAttempt > rl.windowMs
        · rw [if_pos hw] at hfalse; cases hfalse
        · rw [if_neg hw] at hfalse
          by_cases hc : a.count ≥ rl.maxAttempts
          · exact ⟨a, rfl, by omega, hc⟩
          · rw [if_neg hc] at hfalse; cases hfalse
    · rintro ⟨a, ha, hw, hc⟩
      rw [check_eq_some rl id now a ha, if_neg (by omega), if_pos (by omega)]

/-- Witness for the amended C1: the refusal, reset and increment branches at
concrete limiter states. -/
theorem rateLimiter_check_witness :
    (RateLimiter.mk [("a", ⟨5, 0⟩)] 5 60000).check "a" 10 =
      (false, RateLimiter.mk [("a", ⟨5, 0⟩)] 5 60000)
    ∧ (RateLimiter.mk [("a", ⟨5, 0⟩)] 5 60000).check "a" 60001 =
      (true, RateLimiter.mk [("a", ⟨1, 60001⟩)] 5 60000)
    ∧ (RateLimiter.mk [("a", ⟨2, 0⟩)] 5 60000).check "a" 10 =
      (true, RateLimiter.mk [("a", ⟨3, 10⟩)] 5 60000)
    ∧ (RateLimiter.mk [] 5 60000).check "a" 7 =
      (true, RateLimiter.mk [("a", ⟨1, 7⟩)] 5 60000) :=
  ⟨(rateLimiter_check_spec (RateLimiter.mk [("a", ⟨5, 0⟩)] 5 60000) "a" 10).2.2.2.1
      ⟨5, 0⟩ rfl (by decide) (by decide),
   (rateLimiter_check_spec (RateLimiter.mk [("a", ⟨5, 0⟩)] 5 60000) "a" 60001).2.1
      ⟨5, 0⟩ rfl (by decide),
   (rateLimiter_check_spec (RateLimiter.mk [("a", ⟨2, 0⟩)] 5 60000) "a" 10).2.2.1
      ⟨2, 0⟩ rfl (by decide) (by decide),
   (rateLimiter_check_spec (RateLimiter.mk [] 5 60000) "a" 7).1 rfl⟩

/-- Counterexample for C1 as stated: read with the spec's `windowStart`
(the timestamp the current window began, moved only when the window resets),
the claim admits a call once more than `windowMs` has elapsed since the
window began.  After five admissions at times 0..4 the window began at time
0, so at time 60002 the claim grants admission (reset), but the code —
measuring from the last recorded attempt at time 4 — refuses. -/
theorem rateLimiter_check_counterexample :
    (((RateLimiter.mk [] 5 60000).runState
        [("a", 0), ("a", 1), ("a", 2), ("a", 3), ("a", 4)]).check "a" 60002).1
      = false
    ∧ (claimCheck (claimCheckState 5 60000 none [0, 1, 2, 3, 4]) 5 60000
        60002).1 = true := by
  refine ⟨by decide, by decide⟩

theorem recGet_alistSet (r : List (String × Nat)) (k : String) (v : Nat)
    (s : String) : recGet (alistSet r k v) s = if s = k then v else recGet r s := by
  unfold recGet
  by_cases h : s = k
  · subst h
    rw [alistFind?_set_self]
    simp
  · rw [alistFind?_set_ne _ _ _ _ h]
    simp [h]

theorem stats_fold_decomp (calls : List ActiveCall)
    (bs bt : List (String × Nat)) (dp : Int × Nat) :
    calls.foldl
        (fun acc call =>
          (statusAcc acc.1 call, typeAcc acc.2.1 call, durationAcc acc.2.2 call))
        (bs, bt, dp)
      = (calls.foldl statusAcc bs, calls.foldl typeAcc bt,
         calls.foldl durationAcc dp) := by
  induction calls generalizing bs bt dp with
  | nil => rfl
  | cons c cs ih =>
    simp only [List.foldl_cons]
    exact ih _ _ _

theorem statusAcc_fold (calls : List ActiveCall) (bs : List (String × Nat))
    (s : String) :
    recGet (calls.foldl statusAcc bs) s =
      recGet bs s + calls.countP (fun c => c.status == s) := by
  induction calls generalizing bs with
  | nil => simp
  | cons c cs ih =>
    simp only [List.foldl_cons, List.countP_cons]
    rw [ih]
    show recGet (alistSet bs c.status (recGet bs c.status + 1)) s + _ = _
    rw [recGet_alistSet]
    by_cases h : s = c.status
    · subst h
      simp only [if_true, beq_self_eq_true, if_pos rfl]
      omega
    · have hbeq : (c.status == s) = false := by
        simp [beq_iff_eq]
        exact fun hh => h hh.symm
      simp only [if_neg h, hbeq]
      simp

theorem typeAcc_fold (calls : List ActiveCall) (bt : List (String × Nat))
    (ty : String) :
    recGet (calls.foldl typeAcc bt) ty =
      recGet bt ty + calls.countP (fun c => c.type == ty) := by
  induction calls generalizing bt with
  | nil => simp
  | cons c cs ih =>
    simp only [List.foldl_cons, List.countP_cons]
    rw [ih]
    show recGet (alistSet bt c.type (recGet bt c.type + 1)) ty + _ = _
    rw [recGet_alistSet]
    by_cases h : ty = c.type
    · subst h
      simp only [if_true, beq_self_eq_true, if_pos rfl]
      omega
    · have hbeq : (c.type == ty) = false := by
        simp [beq_iff_eq]
        exact fun hh => h hh.symm
      simp only [if_neg h, hbeq]
      simp

theorem durationAcc_fold (calls : List ActiveCall) (p : Int × Nat) :
    calls.foldl durationAcc p =
      (p.1 + (qualifyingDurations calls).sum,
       p.2 + (qualifyingDurations calls).length) := by
  induction calls generalizing p with
  | nil => simp [qualifyingDurations]
  | cons c cs ih =>
    simp only [List.foldl_cons]
    rw [ih]
    by_cases h : c.status = "completed" ∧ durTruthy c.duration = true
    · have hq : qualifies c = true := by
        unfold qualifies
        simp [beq_iff_eq, h.1, h.2]
      have hstep : durationAcc p c = (p.1 + c.duration.getD 0, p.2 + 1) := by
        unfold durationAcc
        rw [if_pos h]
      rw [hstep]
      unfold qualifyingDurations
      simp only [List.filter_cons, hq, if_true, List.map_cons, List.sum_cons,
        List.length_cons]
      rw [Prod.mk.injEq]
      constructor <;> omega
    · have hq : qualifies c = false := by
        unfold qualifies
        rcases not_and_or.mp h with h1 | h2
        · simp [beq_iff_eq, h1]
        · simp [Bool.not_eq_true] at h2
          simp [h2]
      have hstep : durationAcc p c = p := by
        unfold durationAcc
        rw [if_neg h]
      rw [hstep]
      unfold qualifyingDurations
      simp [List.filter_cons, hq]

theorem getCallStatistics_avg (calls : List ActiveCall) :
    (getCallStatistics calls).averageCallDuration =
      amendedAverageCallDuration calls := by
  unfold getCallStatistics amendedAverageCallDuration
  rw [stats_fold_decomp, durationAcc_fold]
  simp

/-- Counterexample for C3 as stated: a completed session whose `duration`
field is present but `0` is excluded from the code's mean (the truthiness
test `call.duration` rejects `0`), so on a registry with completed sessions
of durations 0 and 10 the code reports a mean of 10 while the claim's mean
over sessions with a present duration is 5. -/
theorem getCallStatistics_counterexample :
    (getCallStatistics
        [exCall "CA1" "completed" (some 0),
         exCall "CA2" "completed" (some 10)]).averageCallDuration = 10
    ∧ claimAverageCallDuration
        [exCall "CA1" "completed" (some 0),
         exCall "CA2" "completed" (some 10)] = 5
    ∧ (getCallStatistics
        [exCall "CA1" "completed" (some 0),
         exCall "CA2" "completed" (some 10)]).averageCallDuration ≠
      claimAverageCallDuration
        [exCall "CA1" "completed" (some 0),
         exCall "CA2" "completed" (some 10)] := by
  have h1 : (getCallStatistics
      [exCall "CA1" "completed" (some 0),
       exCall "CA2" "completed" (some 10)]).averageCallDuration = 10 := by
    rw [getCallStatistics_avg]
    have hq : qualifyingDurations
        [exCall "CA1" "completed" (some 0),
         exCall "CA2" "completed" (some 10)] = [10] := by decide
    unfold amendedAverageCallDuration
    rw [hq]
    norm_num
  have h2 : claimAverageCallDuration
      [exCall "CA1" "completed" (some 0),
       exCall "CA2" "completed" (some 10)] = 5 := by
    have hq : claimQualifyingDurations
        [exCall "CA1" "completed" (some 0),
         exCall "CA2" "completed" (some 10)] = [0, 10] := by decide
    unfold claimAverageCallDuration
    rw [hq]
    norm_num
  refine ⟨h1, h2, ?_⟩
  rw [h1, h2]
  norm_num

/-- C3 amended: over currently tracked sessions only, `getCallStatistics`
counts sessions grouped by status and by direction/type, and averages the
`duration` of sessions whose status is `completed` and whose `duration` is
present and nonzero (a duration of 0 is treated like an absent one by the
truthiness test), with mean 0 when no session qualifies; on the empty
registry every part is empty/zero, and on a registry with one completed
session of duration 42 and one ringing session the mean is 42 with
`callsByStatus = [(completed, 1), (ringing, 1)]`. -/
theorem getCallStatistics_spec (calls : List ActiveCall) :
    (getCallStatistics calls).totalActiveCalls = calls.length
    ∧ (∀ s, recGet (getCallStatistics calls).callsByStatus s =
        calls.countP (fun c => c.status == s))
    ∧ (∀ ty, recGet (getCallStatistics calls).callsByType ty =
        calls.countP (fun c => c.type == ty))
    ∧ (getCallStatistics calls).averageCallDuration =
        amendedAverageCallDuration calls
    ∧ (getCallStatistics []).totalActiveCalls = 0
    ∧ (getCallStatistics []).callsByStatus = []
    ∧ (getCallStatistics []).callsByType = []
    ∧ (getCallStatistics []).averageCallDuration = 0
    ∧ (getCallStatistics
        [exCall "CA1" "completed" (some 42),
         exCall "CA2" "ringing" none]).averageCallDuration = 42
    ∧ (getCallStatistics
        [exCall "CA1" "completed" (some 42),
         exCall "CA2" "ringing" none]).callsByStatus =
        [("completed", 1), ("ringing", 1)]
    ∧ (getCallStatistics
        [exCall "CA1" "completed" (some 42),
         exCall "CA2" "ringing" none]).callsByType =
        [("browser-to-phone", 2)]
    ∧ (getCallStatistics
        [exCall "CA1" "completed" (some 42),
         exCall "CA2" "ringing" none]).totalActiveCalls = 2 := by
  have h42 : (getCallStatistics
      [exCall "CA1" "completed" (some 42),
       exCall "CA2" "ringing" none]).averageCallDuration = 42 := by
    rw [getCallStatistics_avg]
    have hq : qualifyingDurations
        [exCall "CA1" "completed" (some 42), exCall "CA2" "ringing" none] =
        [42] := by decide
    unfold amendedAverageCallDuration
    rw [hq]
    norm_num
  refine ⟨rfl, ?_, ?_, getCallStatistics_avg calls, rfl, rfl, rfl, rfl, h42,
    by decide, by decide, rfl⟩
  · intro s
    show recGet
      (([] : List ActiveCall) ++ calls |>.foldl
        (fun acc call =>
          (statusAcc acc.1 call, typeAcc acc.2.1 call, durationAcc acc.2.2 call))
        ([], [], (0, 0))).1 s = _
    rw [List.nil_append, stats_fold_decomp]
    show recGet (calls.foldl statusAcc []) s = _
    rw [statusAcc_fold]
    simp [recGet, alistFind?]
  · intro ty
    show recGet
      (([] : List ActiveCall) ++ calls |>.foldl
        (fun acc call =>
          (statusAcc acc.1 call, typeAcc acc.2.1 call, durationAcc acc.2.2 call))
        ([], [], (0, 0))).2.1 ty = _
    rw [List.nil_append, stats_fold_decomp]
    show recGet (calls.foldl typeAcc []) ty = _
    rw [typeAcc_fold]
    simp [recGet, alistFind?]

theorem get_snoc_lt (A : List Int) (x : Int) (i : Nat) (hi : i < A.length)
    (h : i < (A ++ [x]).length) : (A ++ [x]).get ⟨i, h⟩ = A.get ⟨i, hi⟩ := by
  induction A generalizing i with
  | nil => cases hi
  | cons a as ih =>
    cases i with
    | zero => rfl
    | succ n =>
      exact ih n (Nat.lt_of_succ_lt_succ hi) (Nat.lt_of_succ_lt_succ h)

theorem get_snoc_last (A : List Int) (x : Int)
    (h : A.length < (A ++ [x]).length) :
    (A ++ [x]).get ⟨A.length, h⟩ = x := by
  induction A with
  | nil => rfl
  | cons a as ih => exact ih (by simp)

theorem mem_drop_get (A : List Int) (m : Nat) (x : Int) (hx : x ∈ A.drop m) :
    ∃ (j : Nat) (hj : j < A.length), m ≤ j ∧ A.get ⟨j, hj⟩ = x := by
  induction A generalizing m with
  | nil => simp at hx
  | cons a as ih =>
    cases m with
    | zero =>
      rcases List.mem_cons.mp hx with h | h
      · exact ⟨0, Nat.succ_pos _, Nat.zero_le _, h.symm⟩
      · obtain ⟨j, hj, _, hg⟩ := ih 0 (by simpa using h)
        exact ⟨j + 1, Nat.succ_lt_succ hj, Nat.zero_le _, hg⟩
    | succ n =>
      obtain ⟨j, hj, hm, hg⟩ := ih n hx
      exact ⟨j + 1, Nat.succ_lt_succ hj, Nat.succ_le_succ hm, hg⟩

theorem sorted_snoc_le (B : List Int) (x : Int)
    (hs : (B ++ [x]).Sorted (· ≤ ·)) : ∀ y ∈ B ++ [x], y ≤ x := by
  intro y hy
  rcases List.mem_append.mp hy with h | h
  · exact (List.pairwise_append.mp hs).2.2 y h x (List.mem_singleton_self x)
  · rw [List.mem_singleton.mp h]

theorem sorted_snoc (A : List Int) (x : Int) (hs : A.Sorted (· ≤ ·))
    (hle : ∀ y ∈ A, y ≤ x) : (A ++ [x]).Sorted (· ≤ ·) := by
  rw [List.Sorted, List.pairwise_append]
  exact ⟨hs, List.pairwise_singleton _ _,
    fun y hy z hz => (List.mem_singleton.mp hz) ▸ hle y hy⟩

theorem goodList_snoc (k : Nat) (hk : 1 ≤ k) (w : Int) (A : List Int) (x : Int)
    (hG : GoodList k w A)
    (hx : ∀ (i : Nat) (hi : i < A.length), i + k ≤ A.length →
      x - A.get ⟨i, hi⟩ > w) :
    GoodList k w (A ++ [x]) := by
  intro i j hi hj hij
  have hlen : (A ++ [x]).length = A.length + 1 := by simp
  by_cases hjA : j < A.length
  · have hiA : i < A.length := by omega
    rw [get_snoc_lt A x j hjA, get_snoc_lt A x i hiA]
    exact hG i j hiA hjA hij
  · have hjeq : j = A.length := by omega
    subst hjeq
    have hiA : i < A.length := by omega
    rw [get_snoc_last A x hj, get_snoc_lt A x i hiA]
    exact hx i hiA (by omega)

theorem countP_window_le (k : Nat) (hk : 1 ≤ k) (w T : Int) :
    ∀ (A : List Int), A.Sorted (· ≤ ·) → GoodList k w A →
      A.countP (inWindow w T) ≤ k := by
  intro A
  induction A with
  | nil => intro _ _; simp
  | cons a A ih =>
    intro hs hG
    have hs' : A.Sorted (· ≤ ·) := (List.pairwise_cons.mp hs).2
    have hG' : GoodList k w A := by
      intro i j hi hj hij
      exact hG (i + 1) (j + 1) (Nat.succ_lt_succ hi) (Nat.succ_lt_succ hj)
        (by omega)
    rw [List.countP_cons]
    by_cases hpa : inWindow w T a = true
    · rw [if_pos hpa]
      have hpa' : T ≤ a ∧ a ≤ T + w := by
        simpa [inWindow] using hpa
      have hbound : A.countP (inWindow w T) ≤ k - 1 := by
        have hsplit : A.countP (inWindow w T) =
            (A.take (k - 1)).countP (inWindow w T) +
              (A.drop (k - 1)).countP (inWindow w T) := by
          rw [← List.countP_append, List.take_append_drop]
        rw [hsplit]
        have h1 : (A.take (k - 1)).countP (inWindow w T) ≤ k - 1 := by
          refine le_trans (List.countP_le_length _) ?_
          simp
        have h2 : (A.drop (k - 1)).countP (inWindow w T) = 0 := by
          rw [List.countP_eq_zero]
          intro x hx hpx
          obtain ⟨j, hj, hmj, hgj⟩ := mem_drop_get A (k - 1) x hx
          have hpx' : T ≤ x ∧ x ≤ T + w := by
            simpa [inWindow] using hpx
          have hgap := hG 0 (j + 1) (Nat.succ_pos _)
            (Nat.succ_lt_succ hj) (by omega)
          rw [show ((a :: A).get ⟨0, Nat.succ_pos _⟩) = a from rfl] at hgap
          have hget : (a :: A).get ⟨j + 1, Nat.succ_lt_succ hj⟩ =
              A.get ⟨j, hj⟩ := rfl
          rw [hget, hgj] at hgap
          omega
        omega
      omega
    · rw [if_neg hpa]
      have := ih hs' hG'
      omega

theorem admitted_invariant (id : String) (k : Nat) (hk : 1 ≤ k) (w : Int) :
    ∀ (calls : List (String × Int)) (st : List (String × RateLimitEntry))
      (A : List Int) (lb : Int),
      A.Sorted (· ≤ ·) →
      (∀ a ∈ A, a ≤ lb) →
      (∀ p ∈ calls, lb ≤ p.2) →
      (calls.map Prod.snd).Sorted (· ≤ ·) →
      GoodList k w A →
      EntryInv k w (alistFind? st id) A →
      GoodList k w (A ++ (RateLimiter.mk st k w).admitted id calls) ∧
        (A ++ (RateLimiter.mk st k w).admitted id calls).Sorted (· ≤ ·) := by
  intro calls
  induction calls with
  | nil =>
    intro st A lb hsA hAlb _ _ hG _
    simpa [RateLimiter.admitted] using ⟨hG, hsA⟩
  | cons hd tl ih =>
    obtain ⟨cid, t⟩ := hd
    intro st A lb hsA hAlb hclb hcsort hG hE
    have hlbt : lb ≤ t := hclb (cid, t) (List.mem_cons_self _ _)
    have hAt : ∀ a ∈ A, a ≤ t := fun a ha => le_trans (hAlb a ha) hlbt
    have htlge : ∀ p ∈ tl, t ≤ p.2 := by
      intro p hp
      have hx := (List.pairwise_cons.mp hcsort).1 p.2
        (List.mem_map_of_mem Prod.snd hp)
      simpa using hx
    have htlsort : (tl.map Prod.snd).Sorted (· ≤ ·) :=
      (List.pairwise_cons.mp hcsort).2
    have hsnocle : ∀ y ∈ A ++ [t], y ≤ t := by
      intro y hy
      rcases List.mem_append.mp hy with h | h
      · exact hAt y h
      · exact le_of_eq (List.mem_singleton.mp h)
    by_cases hcid : cid = id
    · subst hcid
      cases hf : alistFind? st cid with
      | none =>
        have hAnil : A = [] := by
          have hE' := hE
          rw [hf] at hE'
          exact hE'
        subst hAnil
        have hcheck : (RateLimiter.mk st k w).check cid t =
            (true, RateLimiter.mk (alistSet st cid ⟨1, t⟩) k w) := by
          rw [check_eq_none (RateLimiter.mk st k w) cid t hf]
        have hadm : (RateLimiter.mk st k w).admitted cid ((cid, t) :: tl) =
            t :: (RateLimiter.mk (alistSet st cid ⟨1, t⟩) k w).admitted cid tl := by
          simp [RateLimiter.admitted, hcheck]
        rw [hadm]
        have hres := ih (alistSet st cid ⟨1, t⟩) [t] t
          (List.sorted_singleton t) (by simp) htlge htlsort
          (by
            intro i j hi hj hij
            exfalso
            simp only [List.length_singleton] at hi hj
            omega)
          (by
            rw [alistFind?_set_self]
            refine ⟨le_refl 1, hk, by simp, ⟨[], rfl⟩, ?_⟩
            show RunOk 1 w [t]
            intro i j hi hj hlt _
            exfalso
            simp only [List.length_singleton] at hlt
            omega)
        exact hres
      | some a =>
        have hEa : 1 ≤ a.count ∧ a.count ≤ k ∧ a.count ≤ A.length ∧
            (∃ B, A = B ++ [a.lastAttempt]) ∧ RunOk a.count w A := by
          have hE' := hE
          rw [hf] at hE'
          exact hE'
        obtain ⟨hc1, hck, hclen, ⟨B, hB⟩, hrun⟩ := hEa
        have hle_last : ∀ y ∈ A, y ≤ a.lastAttempt := by
          rw [hB] at hsA ⊢
          exact sorted_snoc_le B a.lastAttempt hsA
        by_cases hw : t - a.lastAttempt > w
        · -- reset: more than windowMs since the last recorded attempt
          have hcheck : (RateLimiter.mk st k w).check cid t =
              (true, RateLimiter.mk (alistSet st cid ⟨1, t⟩) k w) := by
            rw [check_eq_some (RateLimiter.mk st k w) cid t a hf,
              if_pos (show t - a.lastAttempt >
                (RateLimiter.mk st k w).windowMs from hw)]
          have hadm : (RateLimiter.mk st k w).admitted cid ((cid, t) :: tl) =
              t :: (RateLimiter.mk (alistSet st cid ⟨1, t⟩) k w).admitted cid tl := by
            simp [RateLimiter.admitted, hcheck]
          rw [hadm]
          have hgap : ∀ (i : Nat) (hi : i < A.length),
              t - A.get ⟨i, hi⟩ > w := by
            intro i hi
            have h1 : A.get ⟨i, hi⟩ ≤ a.lastAttempt :=
              hle_last _ (A.get_mem i hi)
            omega
          have hres := ih (alistSet st cid ⟨1, t⟩) (A ++ [t]) t
            (sorted_snoc A t hsA hAt) hsnocle htlge htlsort
            (goodList_snoc k hk w A t hG (fun i hi _ => hgap i hi))
            (by
              rw [alistFind?_set_self]
              refine ⟨le_refl 1, hk, by simp, ⟨A, rfl⟩, ?_⟩
              show RunOk 1 w (A ++ [t])
              intro i j hi hj hlt hge
              have hlen : (A ++ [t]).length = A.length + 1 := by simp
              have hjeq : j = A.length := by omega
              subst hjeq
              have hiA : i < A.length := by omega
              rw [get_snoc_last A t hj, get_snoc_lt A t i hiA]
              exact hgap i hiA)
          have happ : A ++ t ::
              ((RateLimiter.mk (alistSet st cid ⟨1, t⟩) k w).admitted cid tl) =
              (A ++ [t]) ++
              ((RateLimiter.mk (alistSet st cid ⟨1, t⟩) k w).admitted cid tl) := by
            simp
          rw [happ]
          exact hres
        · by_cases hcnt : a.count ≥ k
          · -- refusal: at the limit, state unchanged
            have hcheck : (RateLimiter.mk st k w).check cid t =
                (false, RateLimiter.mk st k w) := by
              rw [check_eq_some (RateLimiter.mk st k w) cid t a hf,
                if_neg (show ¬ t - a.lastAttempt >
                  (RateLimiter.mk st k w).windowMs from hw),
                if_pos (show a.count ≥
                  (RateLimiter.mk st k w).maxAttempts from hcnt)]
            have hadm : (RateLimiter.mk st k w).admitted cid ((cid, t) :: tl) =
                (RateLimiter.mk st k w).admitted cid tl := by
              simp [RateLimiter.admitted, hcheck]
            rw [hadm]
            exact ih st A t hsA hAt htlge htlsort hG hE
          · -- increment within the window
            have hcheck : (RateLimiter.mk st k w).check cid t =
                (true,
                  RateLimiter.mk (alistSet st cid ⟨a.count + 1, t⟩) k w) := by
              rw [check_eq_some (RateLimiter.mk st k w) cid t a hf,
                if_neg (show ¬ t - a.lastAttempt >
                  (RateLimiter.mk st k w).windowMs from hw),
                if_neg (show ¬ a.count ≥
                  (RateLimiter.mk st k w).maxAttempts from hcnt)]
            have hadm : (RateLimiter.mk st k w).admitted cid ((cid, t) :: tl) =
                t :: (RateLimiter.mk (alistSet st cid ⟨a.count + 1, t⟩) k
                  w).admitted cid tl := by
              simp [RateLimiter.admitted, hcheck]
            rw [hadm]
            have hgap2 : ∀ (i : Nat) (hi : i < A.length), i + k ≤ A.length →
                t - A.get ⟨i, hi⟩ > w := by
              intro i hi hik
              have hnz : A.length - a.count < A.length := by omega
              have hrun' := hrun i (A.length - a.count) hi hnz
                (by omega) (by omega)
              have hmem : A.get ⟨A.length - a.count, hnz⟩ ≤ lb :=
                hAlb _ (A.get_mem _ hnz)
              omega
            have hres := ih (alistSet st cid ⟨a.count + 1, t⟩) (A ++ [t]) t
              (sorted_snoc A t hsA hAt) hsnocle htlge htlsort
              (goodList_snoc k hk w A t hG hgap2)
              (by
                rw [alistFind?_set_self]
                refine ⟨?_, ?_, ?_, ⟨A, rfl⟩, ?_⟩
                · show 1 ≤ a.count + 1
                  omega
                · show a.count + 1 ≤ k
                  omega
                · show a.count + 1 ≤ (A ++ [t]).length
                  simp only [List.length_append, List.length_singleton]
                  omega
                show RunOk (a.count + 1) w (A ++ [t])
                intro i j hi hj hlt hge
                have hlen : (A ++ [t]).length = A.length + 1 := by simp
                by_cases hjA : j < A.length
                · have hiA : i < A.length := by omega
                  rw [get_snoc_lt A t j hjA, get_snoc_lt A t i hiA]
                  exact hrun i j hiA hjA (by omega) (by omega)
                · have hjeq : j = A.length := by omega
                  subst hjeq
                  have hiA : i < A.length := by omega
                  rw [get_snoc_last A t hj, get_snoc_lt A t i hiA]
                  have hnz : A.length - a.count < A.length := by omega
                  have hrun' := hrun i (A.length - a.count) hiA hnz
                    (by omega) (by omega)
                  have hmem : A.get ⟨A.length - a.count, hnz⟩ ≤ lb :=
                    hAlb _ (A.get_mem _ hnz)
                  omega)
            have happ : A ++ t ::
                ((RateLimiter.mk (alistSet st cid ⟨a.count + 1, t⟩) k
                  w).admitted cid tl) =
                (A ++ [t]) ++
                ((RateLimiter.mk (alistSet st cid ⟨a.count + 1, t⟩) k
                  w).admitted cid tl) := by
              simp
            rw [happ]
            exact hres
    · -- the call is for a different identifier: our entry is untouched
      have hstep : ∃ st',
          (RateLimiter.mk st k w).check cid t =
            (((RateLimiter.mk st k w).check cid t).1,
              RateLimiter.mk st' k w) ∧
          alistFind? st' id = alistFind? st id := by
        have hne : id ≠ cid := fun h => hcid h.symm
        cases hf : alistFind? st cid with
        | none =>
          refine ⟨alistSet st cid ⟨1, t⟩, ?_, alistFind?_set_ne _ _ _ _ hne⟩
          rw [check_eq_none (RateLimiter.mk st k w) cid t hf]
        | some a =>
          by_cases hw : t - a.lastAttempt > w
          · refine ⟨alistSet st cid ⟨1, t⟩, ?_, alistFind?_set_ne _ _ _ _ hne⟩
            rw [check_eq_some (RateLimiter.mk st k w) cid t a hf,
              if_pos (show t - a.lastAttempt >
                (RateLimiter.mk st k w).windowMs from hw)]
          · by_cases hcnt : a.count ≥ k
            · refine ⟨st, ?_, rfl⟩
              rw [check_eq_some (RateLimiter.mk st k w) cid t a hf,
                if_neg (show ¬ t - a.lastAttempt >
                  (RateLimiter.mk st k w).windowMs from hw),
                if_pos (show a.count ≥
                  (RateLimiter.mk st k w).maxAttempts from hcnt)]
            · refine ⟨alistSet st cid ⟨a.count + 1, t⟩, ?_,
                alistFind?_set_ne _ _ _ _ hne⟩
              rw [check_eq_some (RateLimiter.mk st k w) cid t a hf,
                if_neg (show ¬ t - a.lastAttempt >
                  (RateLimiter.mk st k w).windowMs from hw),
                if_neg (show ¬ a.count ≥
                  (RateLimiter.mk st k w).maxAttempts from hcnt)]
      obtain ⟨st', hst', hfind⟩ := hstep
      have hadm : (RateLimiter.mk st k w).admitted id ((cid, t) :: tl) =
          (RateLimiter.mk st' k w).admitted id tl := by
        rw [RateLimiter.admitted, hst']
        rw [if_neg (fun hc => hcid hc.1)]
      rw [hadm]
      exact ih st' A t hsA hAt htlge htlsort hG (by rw [hfind]; exact hE)

/-- C4: over any sequence of `check` calls at (nondecreasing, as delivered by
the clock) timestamps, starting from a fresh limiter, any one identifier is
admitted at most `maxAttempts` times within any rolling closed interval of
length `windowMs`. -/
theorem rateLimiter_rolling_window (maxAttempts : Nat) (windowMs : Int)
    (calls : List (String × Int)) (id : String) (T : Int)
    (hmax : 1 ≤ maxAttempts)
    (hmono : (calls.map Prod.snd).Sorted (· ≤ ·)) :
    ((RateLimiter.mk [] maxAttempts windowMs).admitted id calls).countP
        (inWindow windowMs T) ≤ maxAttempts := by
  cases calls with
  | nil => simp [RateLimiter.admitted]
  | cons hd tl =>
    have hclb : ∀ p ∈ hd :: tl, hd.2 ≤ p.2 := by
      intro p hp
      rcases List.mem_cons.mp hp with h | h
      · rw [h]
      · have hx := (List.pairwise_cons.mp hmono).1 p.2
          (List.mem_map_of_mem Prod.snd h)
        simpa using hx
    have hinv := admitted_invariant id maxAttempts hmax windowMs (hd :: tl)
      [] [] hd.2 (List.sorted_nil) (by simp) hclb hmono
      (by intro i j hi hj hij; exfalso; simp at hi)
      (by rfl)
    rw [List.nil_append] at hinv
    exact countP_window_le maxAttempts hmax windowMs T _ hinv.2 hinv.1

/-- Witness for C4: six calls of one identifier at nondecreasing times admit
at most five within the window starting at 0. -/
theorem rateLimiter_rolling_window_witness :
    ((RateLimiter.mk [] 5 60000).admitted "a"
        [("a", 0), ("a", 10), ("a", 20), ("a", 30), ("a", 40), ("a", 50),
         ("a", 60)]).countP (inWindow 60000 0) ≤ 5 :=
  rateLimiter_rolling_window 5 60000
    [("a", 0), ("a", 10), ("a", 20), ("a", 30), ("a", 40), ("a", 50),
     ("a", 60)] "a" 0 (by decide) (by decide)
